import Mathlib

/-!
Shallow embedding of the terminal Snake game (src/main.cpp).

Coordinates, score and speed are stored in C++ `unsigned short` fields, so
all arithmetic on them is carried out modulo `2 ^ 16`; the embedding uses
`Nat` with an explicit `% M` wherever the C++ increment or decrement could
wrap.  Rendering (ncurses calls) and wall-clock gating are external effects
with no bearing on the game state, so `Game.render` is embedded as the state
transformation it performs on the tick in which the timer fires
(`Game.render_step`).  The pseudo-random coordinate generator is embedded as
a list of pre-drawn candidate coordinates consumed by `generate_food`; the
C++ resampling `while` loop becomes a recursion over that list which returns
`none` when the list is exhausted (the C++ program would keep looping).
-/

/-- Modulus of the C++ `unsigned short` type (16-bit unsigned overflow). -/
def M : Nat := 65536

/-- Top-level application status, `enum AppStatus` in main.cpp. -/
inductive AppStatus
  | MENU
  | GAME
  | INFO
  | EXIT
  deriving DecidableEq

/-- Status of the Game screen, `enum GameStatus` in main.cpp. -/
inductive GameStatus
  | RUN
  | PAUSE
  | GAME_OVER
  deriving DecidableEq

/-- Facing direction, `enum Direction` in main.cpp. -/
inductive Direction
  | Up
  | Right
  | Down
  | Left
  deriving DecidableEq

/-- The C++ `coordinates` type: `std::pair<unsigned short, unsigned short>`,
with `first = x` and `second = y`. -/
structure Coord where
  x : Nat
  y : Nat
  deriving DecidableEq, Inhabited

/-- State of the `Snake` class: the `_body_parts` vector (head first), the
facing `_direction` and the `_will_be_grown` flag. -/
structure Snake where
  body : List Coord
  direction : Direction
  will_be_grown : Bool
  deriving DecidableEq

namespace Snake

/-- The `Snake(init_x, init_y, direction)` constructor: one body segment. -/
def mkSnake (init_x init_y : Nat) (d : Direction) : Snake :=
  { body := [⟨init_x, init_y⟩], direction := d, will_be_grown := false }

/-- `Snake::setDirection`. -/
def setDirection (s : Snake) (d : Direction) : Snake :=
  { s with direction := d }

/-- `Snake::getHead`: `_body_parts[0]`.  The C++ index is undefined on an
empty vector; the body is never empty (the constructor makes one segment),
so the `[]` branch is an arbitrary total completion. -/
def getHead (s : Snake) : Coord :=
  match s.body with
  | [] => ⟨0, 0⟩
  | h :: _ => h

/-- `Snake::reset`: `_body_parts.resize(1)`.  On a non-empty vector this
keeps exactly the head; `std::vector::resize(1)` on an empty vector would
value-initialize one element, hence the `[]` branch. -/
def reset (s : Snake) : Snake :=
  { s with
    body :=
      match s.body with
      | [] => [⟨0, 0⟩]
      | h :: _ => [h] }

/-- `Snake::grow_up`: sets the `_will_be_grown` flag. -/
def grow_up (s : Snake) : Snake :=
  { s with will_be_grown := true }

/-- `Snake::is_part_of_body`: `std::any_of` over all body segments. -/
def is_part_of_body (s : Snake) (coords : Coord) : Bool :=
  s.body.any (fun part => decide (part = coords))

/-- `Snake::check_self_abuse`: `std::any_of` from `cbegin() + 1` comparing
each segment with `_body_parts.front()`. -/
def check_self_abuse (s : Snake) : Bool :=
  match s.body with
  | [] => false
  | h :: t => t.any (fun part => decide (part = h))

/-- One-step head displacement: the `switch (_direction)` at the end of
`Snake::move_body`.  `unsigned short` increment and decrement wrap modulo
`2 ^ 16`, so `x--` on `x < M` is `(x + (M - 1)) % M`. -/
def step_head (d : Direction) (c : Coord) : Coord :=
  match d with
  | Direction.Up => ⟨c.x, (c.y + (M - 1)) % M⟩
  | Direction.Right => ⟨(c.x + 1) % M, c.y⟩
  | Direction.Down => ⟨c.x, (c.y + 1) % M⟩
  | Direction.Left => ⟨(c.x + (M - 1)) % M, c.y⟩

/-- `Snake::move_body`: save the tail if growth is pending; shift every
segment onto its predecessor (the reverse-iterator loop leaves index 0
untouched and sets `body[i] = body[i-1]` for `i ≥ 1`, i.e. the vector
becomes `head :: dropLast`); append the saved tail and clear the flag if
growth was pending; finally displace `body[0]` one cell in the facing
direction.  The loop bounds are undefined on an empty vector (never the
case); the `[]` branch is an arbitrary total completion. -/
def move_body (s : Snake) : Snake :=
  match s.body with
  | [] => s
  | h :: t =>
    let last := (h :: t).getLast (List.cons_ne_nil h t)
    let shifted := h :: (h :: t).dropLast
    let grown := if s.will_be_grown then shifted ++ [last] else shifted
    { body := grown.set 0 (step_head s.direction h),
      direction := s.direction,
      will_be_grown := false }

end Snake

/-- `Game::generate_food` relative to a list of pre-drawn random candidate
coordinates: the C++ `while (is_part_of_body(food))` resampling loop takes
the first candidate not on the snake's body; `none` models exhausting the
modelled randomness (the C++ loop would keep drawing). -/
def generate_food (s : Snake) : List Coord → Option Coord
  | [] => none
  | c :: rest => if s.is_part_of_body c then generate_food s rest else some c

/-- State of the `Game` screen: `_speed`, `_score`, `_food`, the owned
`Snake`, and `_game_status`.  Width and height are references into the
application and are passed as parameters to the functions that read them. -/
structure Game where
  speed : Nat
  score : Nat
  food : Coord
  snake : Snake
  gameStatus : GameStatus
  deriving DecidableEq

namespace Game

/-- `Game::check_collision`: head at the border or beyond,
`!(pos_x > 0 && pos_y > 0 && pos_x < get_width() && pos_y < get_height())`. -/
def check_collision (width height : Nat) (g : Game) : Bool :=
  let pos := g.snake.getHead
  decide (¬ (pos.x > 0 ∧ pos.y > 0 ∧ pos.x < width ∧ pos.y < height))

/-- `Game::check_food`: `_food == _snake->getHead()`. -/
def check_food (g : Game) : Bool :=
  decide (g.food = g.snake.getHead)

/-- The collision test at the end of the `RUN` branch of `Game::render`:
`if (check_collision() || _snake->check_self_abuse()) _game_status = GAME_OVER`. -/
def apply_collision_check (width height : Nat) (g : Game) : Game :=
  if g.check_collision width height || g.snake.check_self_abuse then
    { g with gameStatus := GameStatus.GAME_OVER }
  else g

/-- The state effect of `Game::render` on a tick in which the speed timer
fires.  In the `RUN` branch: the snake moves (`Snake::render` calls
`move_body`), then eating is checked (score increment, speed decrease with
floor, `grow_up`, food regeneration), then collision and self-collision are
checked.  `PAUSE` and `GAME_OVER` only print a banner and change nothing. -/
def render_step (width height : Nat) (cands : List Coord) (g : Game) : Option Game :=
  match g.gameStatus with
  | GameStatus.RUN =>
    let g1 : Game := { g with snake := g.snake.move_body }
    if g1.check_food then
      let s2 := g1.snake.grow_up
      match generate_food s2 cands with
      | none => none
      | some f =>
        some (apply_collision_check width height
          { g1 with
            score := (g1.score + 1) % M,
            speed := if g1.speed > 20 then g1.speed - 5 else g1.speed,
            snake := s2,
            food := f })
    else
      some (apply_collision_check width height g1)
  | _ => some g

end Game

/-- Key codes recognized by `Game::input_handler`. -/
inductive Key
  | up
  | right
  | down
  | left
  | q
  | p
  | r
  | other
  deriving DecidableEq

/-- `Game::input_handler`.  Direction keys are rejected when the current
direction is the exact opposite; `q` leaves to the menu; `p` toggles
`PAUSE` (any non-`PAUSE` status becomes `PAUSE`); `r` resets the snake and
— falling through to the empty `default` case — sets the status to
`PAUSE`. -/
def Game.input_handler (input : Key) (g : Game) (status : AppStatus) :
    Game × AppStatus :=
  match input with
  | Key.up =>
    (if g.snake.direction ≠ Direction.Down then
      { g with snake := g.snake.setDirection Direction.Up } else g, status)
  | Key.right =>
    (if g.snake.direction ≠ Direction.Left then
      { g with snake := g.snake.setDirection Direction.Right } else g, status)
  | Key.down =>
    (if g.snake.direction ≠ Direction.Up then
      { g with snake := g.snake.setDirection Direction.Down } else g, status)
  | Key.left =>
    (if g.snake.direction ≠ Direction.Right then
      { g with snake := g.snake.setDirection Direction.Left } else g, status)
  | Key.q => (g, AppStatus.MENU)
  | Key.p =>
    ({ g with
       gameStatus :=
         if g.gameStatus = GameStatus.PAUSE then GameStatus.RUN
         else GameStatus.PAUSE }, status)
  | Key.r => ({ g with snake := g.snake.reset, gameStatus := GameStatus.PAUSE }, status)
  | Key.other => (g, status)

/-- The `Game` constructor: a snake of one segment at `(10, 10)` facing
`Right`, `_speed = 150`, `_score = 0`, status `RUN`, and an initial
`generate_food` call drawing from the candidate list. -/
def mkGame (cands : List Coord) : Option Game :=
  let s := Snake.mkSnake 10 10 Direction.Right
  match generate_food s cands with
  | none => none
  | some f =>
    some { speed := 150, score := 0, food := f, snake := s,
           gameStatus := GameStatus.RUN }

/-- An event delivered to the Game screen by the application loop: either a
tick of `Game::render` in which the timer fires (with the random candidates
it may consume), or a key routed to `Game::input_handler`. -/
inductive Event
  | tickE (cands : List Coord)
  | keyE (k : Key)

/-- One event step on the Game screen's state. -/
def step_event (width height : Nat) (e : Event) (g : Game) : Option Game :=
  match e with
  | Event.tickE cands => g.render_step width height cands
  | Event.keyE k => some (Game.input_handler k g AppStatus.GAME).1

/-- Run a list of events on the Game screen's state. -/
def run_events (width height : Nat) : List Event → Game → Option Game
  | [], g => some g
  | e :: es, g => (step_event width height e g).bind (run_events width height es)

/-- The 180-degree opposite of a direction. -/
def opposite : Direction → Direction
  | Direction.Up => Direction.Down
  | Direction.Right => Direction.Left
  | Direction.Down => Direction.Up
  | Direction.Left => Direction.Right

/-- The direction meant by a direction key, `none` for the other keys. -/
def key_direction : Key → Option Direction
  | Key.up => some Direction.Up
  | Key.right => some Direction.Right
  | Key.down => some Direction.Down
  | Key.left => some Direction.Left
  | _ => none

namespace Snake

/-- Normal form of the body after `move_body` on a non-empty snake: the
displaced head, followed by the whole previous body when growth was
pending, and by the previous body without its tail otherwise. -/
lemma move_body_body (s : Snake) (c : Coord) (t : List Coord) (hb : s.body = c :: t) :
    s.move_body.body =
      step_head s.direction c ::
        (if s.will_be_grown then c :: t else (c :: t).dropLast) := by
  obtain ⟨b, d, w⟩ := s
  simp only at hb
  subst hb
  cases w <;> simp [move_body, List.dropLast_append_getLast]

/-- The facing direction is unchanged by `move_body`. -/
lemma move_body_direction (s : Snake) : s.move_body.direction = s.direction := by
  obtain ⟨b, d, w⟩ := s
  cases b <;> simp [move_body]

/-- The growth flag is cleared by `move_body` on a non-empty snake. -/
lemma move_body_will_be_grown (s : Snake) (c : Coord) (t : List Coord)
    (hb : s.body = c :: t) : s.move_body.will_be_grown = false := by
  obtain ⟨b, d, w⟩ := s
  simp only at hb
  subst hb
  simp [move_body]

/-- The head of a snake with body `c :: t` is `c`. -/
lemma getHead_eq (s : Snake) (c : Coord) (t : List Coord) (hb : s.body = c :: t) :
    s.getHead = c := by
  obtain ⟨b, d, w⟩ := s
  simp only at hb
  subst hb
  rfl

/-- The head after `move_body` is the displaced previous head. -/
lemma getHead_move_body (s : Snake) (c : Coord) (t : List Coord)
    (hb : s.body = c :: t) : s.move_body.getHead = step_head s.direction c := by
  exact getHead_eq _ _ _ (move_body_body s c t hb)

end Snake

/-- C1: every advance displaces the head by exactly one cell in the facing
direction's unit vector (Up is `y - 1`, Right is `x + 1`, Down is `y + 1`,
Left is `x - 1`), and every other segment takes the position its
predecessor held before the advance (segment `i + 1` after the advance is
segment `i` before it); in particular a single-segment snake at `(10, 10)`
facing Right has head `(11, 10)` and unchanged length after one advance
with no growth pending. -/
theorem C1_advance_moves_head_one_cell_and_shifts_body
    (s : Snake) (c : Coord) (t : List Coord)
    (hb : s.body = c :: t) (hx : c.x < M) (hy : c.y < M) :
    (s.direction = Direction.Up → 0 < c.y →
      s.move_body.getHead = ⟨c.x, c.y - 1⟩) ∧
    (s.direction = Direction.Right → c.x + 1 < M →
      s.move_body.getHead = ⟨c.x + 1, c.y⟩) ∧
    (s.direction = Direction.Down → c.y + 1 < M →
      s.move_body.getHead = ⟨c.x, c.y + 1⟩) ∧
    (s.direction = Direction.Left → 0 < c.x →
      s.move_body.getHead = ⟨c.x - 1, c.y⟩) ∧
    (∀ i : Nat, i < s.move_body.body.tail.length →
      s.move_body.body.tail[i]? = s.body[i]?) ∧
    (Snake.mkSnake 10 10 Direction.Right).move_body =
      { body := [⟨11, 10⟩], direction := Direction.Right, will_be_grown := false } := by
  have hh := Snake.getHead_move_body s c t hb
  have hbody := Snake.move_body_body s c t hb
  refine ⟨?_, ?_, ?_, ?_, ?_, by decide⟩
  · intro hd hy0
    rw [hh, hd]
    simp only [Snake.step_head, Coord.mk.injEq, true_and, and_true, M] at *
    omega
  · intro hd hx1
    rw [hh, hd]
    simp only [Snake.step_head, Coord.mk.injEq, true_and, and_true, M] at *
    omega
  · intro hd hy1
    rw [hh, hd]
    simp only [Snake.step_head, Coord.mk.injEq, true_and, and_true, M] at *
    omega
  · intro hd hx0
    rw [hh, hd]
    simp only [Snake.step_head, Coord.mk.injEq, true_and, and_true, M] at *
    omega
  · intro i hi
    rw [hbody, hb]
    rw [hbody] at hi
    by_cases hw : s.will_be_grown
    · simp [hw]
    · simp only [hw, if_false, List.tail_cons] at hi ⊢
      rw [List.dropLast_eq_take] at hi ⊢
      refine List.getElem?_take_of_lt ?_
      simpa using hi

/-- Witness for C1 at the spec's concrete scenario. -/
theorem C1_witness :
    (Snake.mk [(⟨10, 10⟩ : Coord)] Direction.Right false).move_body.getHead = ⟨11, 10⟩ :=
  (C1_advance_moves_head_one_cell_and_shifts_body
    (Snake.mk [⟨10, 10⟩] Direction.Right false) ⟨10, 10⟩ [] rfl (by decide)
    (by decide)).2.1 rfl (by decide)

/-- C2: each advance lengthens the body by one exactly when the growth flag
was pending (and leaves the length unchanged otherwise), the tail appended
on growth is the previous tail position (the last segment is preserved),
the advance clears the pending-growth flag, and `grow_up` sets the flag
without touching the body. -/
theorem C2_advance_growth_semantics (s : Snake) (c : Coord) (t : List Coord)
    (hb : s.body = c :: t) :
    (s.move_body.body.length = s.body.length + if s.will_be_grown then 1 else 0) ∧
    (s.will_be_grown = true → s.move_body.body.getLast? = s.body.getLast?) ∧
    s.move_body.will_be_grown = false ∧
    s.grow_up.will_be_grown = true ∧
    s.grow_up.body = s.body := by
  have hbody := Snake.move_body_body s c t hb
  refine ⟨?_, ?_, Snake.move_body_will_be_grown s c t hb, rfl, rfl⟩
  · rw [hbody, hb]
    by_cases hw : s.will_be_grown <;> simp [hw]
  · intro hw
    rw [hbody, hw, hb]
    simp [List.getLast?_cons_cons]

/-- Witness for C2: a two-segment snake with growth pending advances to
three segments with its tail preserved and the flag cleared. -/
theorem C2_witness :
    (Snake.mk [(⟨3, 4⟩ : Coord), ⟨2, 4⟩] Direction.Right true).move_body.body.length = 3 ∧
    (Snake.mk [(⟨3, 4⟩ : Coord), ⟨2, 4⟩] Direction.Right true).move_body.body.getLast? =
      some ⟨2, 4⟩ ∧
    (Snake.mk [(⟨3, 4⟩ : Coord), ⟨2, 4⟩] Direction.Right true).move_body.will_be_grown =
      false := by
  have h := C2_advance_growth_semantics
    (Snake.mk [⟨3, 4⟩, ⟨2, 4⟩] Direction.Right true) ⟨3, 4⟩ [⟨2, 4⟩] rfl
  refine ⟨by simpa using h.1, ?_, h.2.2.1⟩
  rw [h.2.1 rfl]
  rfl

/-- Characterization of `check_self_abuse`: true exactly when the head
coordinate occurs among the segments after the head. -/
lemma Snake.check_self_abuse_iff (s : Snake) :
    s.check_self_abuse = true ↔ s.getHead ∈ s.body.tail := by
  obtain ⟨b, d, w⟩ := s
  cases b with
  | nil => simp [Snake.check_self_abuse]
  | cons c t =>
    simp only [Snake.check_self_abuse, Snake.getHead, List.any_eq_true,
      decide_eq_true_eq, List.tail_cons]
    exact ⟨fun hx => by
      obtain ⟨x, hxt, hxc⟩ := hx
      exact hxc ▸ hxt, fun hm => ⟨c, hm, rfl⟩⟩

/-- The growth flag does not affect the head. -/
lemma Snake.getHead_grow_up (s : Snake) : s.grow_up.getHead = s.getHead := rfl

namespace Game

/-- Characterization of `check_collision` over `Nat` coordinates. -/
lemma check_collision_true_iff (width height : Nat) (g : Game) :
    g.check_collision width height = true ↔
      (g.snake.getHead.x ≤ 0 ∨ width ≤ g.snake.getHead.x ∨
       g.snake.getHead.y ≤ 0 ∨ height ≤ g.snake.getHead.y) := by
  simp only [check_collision, decide_eq_true_eq]
  omega

/-- The collision test only touches the game status. -/
lemma apply_collision_check_snake (width height : Nat) (g : Game) :
    (apply_collision_check width height g).snake = g.snake := by
  unfold apply_collision_check
  split <;> rfl

/-- The collision test leaves the score unchanged. -/
lemma apply_collision_check_score (width height : Nat) (g : Game) :
    (apply_collision_check width height g).score = g.score := by
  unfold apply_collision_check
  split <;> rfl

/-- The collision test leaves the speed unchanged. -/
lemma apply_collision_check_speed (width height : Nat) (g : Game) :
    (apply_collision_check width height g).speed = g.speed := by
  unfold apply_collision_check
  split <;> rfl

/-- The collision test leaves the food unchanged. -/
lemma apply_collision_check_food (width height : Nat) (g : Game) :
    (apply_collision_check width height g).food = g.food := by
  unfold apply_collision_check
  split <;> rfl

/-- When either test fires, the collision check sets `GAME_OVER`. -/
lemma apply_collision_check_gameOver (width height : Nat) (g : Game)
    (hc : g.check_collision width height = true ∨ g.snake.check_self_abuse = true) :
    (apply_collision_check width height g).gameStatus = GameStatus.GAME_OVER := by
  unfold apply_collision_check
  rcases hc with hc | hc <;> simp [hc]

/-- `render_step` in the `RUN` state on an eating tick: some food candidate
is accepted and the resulting state is the collision check applied to the
eaten-and-grown state. -/
lemma render_step_eat (width height : Nat) (cands : List Coord) (g g' : Game)
    (hrun : g.gameStatus = GameStatus.RUN)
    (heat : g.food = g.snake.move_body.getHead)
    (hstep : g.render_step width height cands = some g') :
    ∃ f, generate_food g.snake.move_body.grow_up cands = some f ∧
      g' = apply_collision_check width height
        { g with
          score := (g.score + 1) % M,
          speed := if g.speed > 20 then g.speed - 5 else g.speed,
          snake := g.snake.move_body.grow_up,
          food := f } := by
  simp only [render_step, hrun, check_food, heat, decide_True, if_true] at hstep
  cases hgen : generate_food g.snake.move_body.grow_up cands with
  | none => rw [hgen] at hstep; simp at hstep
  | some f =>
    rw [hgen] at hstep
    simp only [Option.some.injEq] at hstep
    refine ⟨f, rfl, ?_⟩
    rw [hrun]
    exact hstep.symm

/-- `render_step` in the `RUN` state on a non-eating tick: the resulting
state is the collision check applied to the moved state. -/
lemma render_step_noeat (width height : Nat) (cands : List Coord) (g g' : Game)
    (hrun : g.gameStatus = GameStatus.RUN)
    (hne : ¬ g.food = g.snake.move_body.getHead)
    (hstep : g.render_step width height cands = some g') :
    g' = apply_collision_check width height { g with snake := g.snake.move_body } := by
  simp [render_step, hrun, check_food, hne] at hstep
  rw [hrun]
  exact hstep.symm

end Game

/-- C3: on a tick executed in the `RUN` state, if the head coordinate after
movement is at or beyond any border (`x ≤ 0`, `x ≥ width`, `y ≤ 0` or
`y ≥ height`), the game status becomes `GAME_OVER` at that tick's check. -/
theorem C3_border_collision_game_over (width height : Nat) (cands : List Coord)
    (g g' : Game) (hrun : g.gameStatus = GameStatus.RUN)
    (hstep : g.render_step width height cands = some g')
    (hout : g'.snake.getHead.x ≤ 0 ∨ width ≤ g'.snake.getHead.x ∨
            g'.snake.getHead.y ≤ 0 ∨ height ≤ g'.snake.getHead.y) :
    g'.gameStatus = GameStatus.GAME_OVER := by
  by_cases heat : g.food = g.snake.move_body.getHead
  · obtain ⟨f, hgen, hg'⟩ := Game.render_step_eat width height cands g g' hrun heat hstep
    subst hg'
    rw [Game.apply_collision_check_snake] at hout
    apply Game.apply_collision_check_gameOver
    left
    rw [Game.check_collision_true_iff]
    simpa [Snake.getHead_grow_up] using hout
  · have hg' := Game.render_step_noeat width height cands g g' hrun heat hstep
    subst hg'
    rw [Game.apply_collision_check_snake] at hout
    apply Game.apply_collision_check_gameOver
    left
    rw [Game.check_collision_true_iff]
    simpa using hout

/-- Game one tick before hitting the right border of an 80 by 24 field. -/
def gWall : Game :=
  { speed := 150, score := 0, food := ⟨1, 1⟩,
    snake := Snake.mk [⟨79, 10⟩] Direction.Right false,
    gameStatus := GameStatus.RUN }

/-- The state `gWall` reaches after one tick: head on the border, game over. -/
def gWallAfter : Game :=
  { speed := 150, score := 0, food := ⟨1, 1⟩,
    snake := Snake.mk [⟨80, 10⟩] Direction.Right false,
    gameStatus := GameStatus.GAME_OVER }

/-- Witness for C3: moving right from `x = 79` on an 80-wide field ends the
game on that tick. -/
theorem C3_witness : gWallAfter.gameStatus = GameStatus.GAME_OVER :=
  C3_border_collision_game_over 80 24 [] gWall gWallAfter rfl (by decide) (by decide)

/-- C4: the self-collision check is true exactly when the head coordinate
equals some non-head segment (it never compares the head with itself), and
a tick executed in the `RUN` state whose moved snake (of length at least 3)
has its head on a non-head segment ends in `GAME_OVER`. -/
theorem C4_self_collision_game_over (s : Snake)
    (width height : Nat) (cands : List Coord) (g g' : Game)
    (hrun : g.gameStatus = GameStatus.RUN)
    (hstep : g.render_step width height cands = some g')
    (hlen : 3 ≤ g'.snake.body.length)
    (hmem : g'.snake.getHead ∈ g'.snake.body.tail) :
    (s.check_self_abuse = true ↔ s.getHead ∈ s.body.tail) ∧
    g'.gameStatus = GameStatus.GAME_OVER := by
  refine ⟨Snake.check_self_abuse_iff s, ?_⟩
  by_cases heat : g.food = g.snake.move_body.getHead
  · obtain ⟨f, hgen, hg'⟩ := Game.render_step_eat width height cands g g' hrun heat hstep
    subst hg'
    rw [Game.apply_collision_check_snake] at hmem
    apply Game.apply_collision_check_gameOver
    right
    rw [Snake.check_self_abuse_iff]
    simpa using hmem
  · have hg' := Game.render_step_noeat width height cands g g' hrun heat hstep
    subst hg'
    rw [Game.apply_collision_check_snake] at hmem
    apply Game.apply_collision_check_gameOver
    right
    rw [Snake.check_self_abuse_iff]
    simpa using hmem

/-- Game whose pending-growth advance makes the head land on its own body. -/
def gLoop : Game :=
  { speed := 150, score := 0, food := ⟨1, 1⟩,
    snake := Snake.mk [⟨5, 5⟩, ⟨5, 6⟩, ⟨6, 6⟩, ⟨6, 5⟩] Direction.Right true,
    gameStatus := GameStatus.RUN }

/-- The state `gLoop` reaches after one tick: five segments, head on the
tail segment, game over. -/
def gLoopAfter : Game :=
  { speed := 150, score := 0, food := ⟨1, 1⟩,
    snake := Snake.mk [⟨6, 5⟩, ⟨5, 5⟩, ⟨5, 6⟩, ⟨6, 6⟩, ⟨6, 5⟩] Direction.Right false,
    gameStatus := GameStatus.GAME_OVER }

/-- Witness for C4: a five-segment snake whose head lands on its tail
segment triggers the self-collision game over. -/
theorem C4_witness :
    ((Snake.mk [(⟨2, 2⟩ : Coord), ⟨2, 3⟩, ⟨2, 2⟩] Direction.Up false).check_self_abuse = true ↔
      (Snake.mk [(⟨2, 2⟩ : Coord), ⟨2, 3⟩, ⟨2, 2⟩] Direction.Up false).getHead ∈
        (Snake.mk [(⟨2, 2⟩ : Coord), ⟨2, 3⟩, ⟨2, 2⟩] Direction.Up false).body.tail) ∧
    gLoopAfter.gameStatus = GameStatus.GAME_OVER :=
  C4_self_collision_game_over (Snake.mk [⟨2, 2⟩, ⟨2, 3⟩, ⟨2, 2⟩] Direction.Up false)
    80 24 [] gLoop gLoopAfter rfl (by decide) (by decide) (by decide)

/-- Whatever `generate_food` returns is off the snake's body: the
resampling loop only stops at a coordinate that fails `is_part_of_body`. -/
lemma generate_food_not_on_body (s : Snake) (cands : List Coord) (f : Coord)
    (hgen : generate_food s cands = some f) : s.is_part_of_body f = false := by
  induction cands with
  | nil => simp [generate_food] at hgen
  | cons c rest ih =>
    rw [generate_food] at hgen
    by_cases hc : s.is_part_of_body c = true
    · rw [if_pos hc] at hgen
      exact ih hgen
    · rw [if_neg hc] at hgen
      simp only [Option.some.injEq] at hgen
      subst hgen
      simp only [Bool.not_eq_true] at hc
      exact hc

/-- C5: immediately after every food placement the food coordinate is off
the snake's body: for any direct `generate_food` call, for the placement in
the `Game` constructor, and for the regeneration on an eating tick, with no
restriction on the snake's length. -/
theorem C5_food_never_on_snake (s : Snake) (cands : List Coord) (f : Coord)
    (hgen : generate_food s cands = some f)
    (cands0 : List Coord) (g0 : Game) (hmk : mkGame cands0 = some g0)
    (width height : Nat) (cands1 : List Coord) (g g' : Game)
    (hrun : g.gameStatus = GameStatus.RUN)
    (heat : g.food = g.snake.move_body.getHead)
    (hstep : g.render_step width height cands1 = some g') :
    s.is_part_of_body f = false ∧
    g0.snake.is_part_of_body g0.food = false ∧
    g'.snake.is_part_of_body g'.food = false := by
  refine ⟨generate_food_not_on_body s cands f hgen, ?_, ?_⟩
  · cases hg : generate_food (Snake.mkSnake 10 10 Direction.Right) cands0 with
    | none =>
      simp only [mkGame, hg] at hmk
      exact Option.noConfusion hmk
    | some f0 =>
      simp only [mkGame, hg, Option.some.injEq] at hmk
      subst hmk
      simpa using generate_food_not_on_body _ cands0 f0 hg
  · obtain ⟨f1, hgen1, hg'⟩ :=
      Game.render_step_eat width height cands1 g g' hrun heat hstep
    subst hg'
    rw [Game.apply_collision_check_snake, Game.apply_collision_check_food]
    simpa using generate_food_not_on_body _ cands1 f1 hgen1

/-- Game about to eat the food at `(11, 10)` on the next tick. -/
def gEat : Game :=
  { speed := 150, score := 0, food := ⟨11, 10⟩,
    snake := Snake.mk [⟨10, 10⟩] Direction.Right false,
    gameStatus := GameStatus.RUN }

/-- The state `gEat` reaches after the eating tick with candidate food
list `[(11, 10), (1, 1)]`: the first candidate is rejected because it sits
on the moved body, the second accepted. -/
def gEatAfter : Game :=
  { speed := 145, score := 1, food := ⟨1, 1⟩,
    snake := Snake.mk [⟨11, 10⟩] Direction.Right true,
    gameStatus := GameStatus.RUN }

/-- Initial game drawn with candidate list `[(10, 10), (1, 1)]`: the first
candidate sits on the single-segment snake and is resampled. -/
def gInit : Game :=
  { speed := 150, score := 0, food := ⟨1, 1⟩,
    snake := Snake.mkSnake 10 10 Direction.Right,
    gameStatus := GameStatus.RUN }

/-- Witness for C5 with a single-segment snake, exercising the resampling
of a candidate that lies on the body. -/
theorem C5_witness :
    (Snake.mk [(⟨10, 10⟩ : Coord)] Direction.Right false).is_part_of_body ⟨1, 1⟩ = false ∧
    gInit.snake.is_part_of_body gInit.food = false ∧
    gEatAfter.snake.is_part_of_body gEatAfter.food = false :=
  C5_food_never_on_snake (Snake.mk [⟨10, 10⟩] Direction.Right false)
    [⟨10, 10⟩, ⟨1, 1⟩] ⟨1, 1⟩ (by decide)
    [⟨10, 10⟩, ⟨1, 1⟩] gInit (by decide)
    80 24 [⟨11, 10⟩, ⟨1, 1⟩] gEat gEatAfter rfl (by decide) (by decide)

/-- C6: for any direction key, the input handler leaves the facing
direction unchanged when the key's direction is the exact opposite of the
current one, and sets it to the key's direction otherwise. -/
theorem C6_direction_reversal_guard (g : Game) (status : AppStatus) (k : Key)
    (dk : Direction) (hk : key_direction k = some dk) :
    (Game.input_handler k g status).1.snake.direction =
      (if g.snake.direction = opposite dk then g.snake.direction else dk) := by
  cases k with
  | up =>
    simp only [key_direction, Option.some.injEq] at hk
    subst hk
    by_cases hd : g.snake.direction = Direction.Down
    · simp [Game.input_handler, opposite, hd]
    · simp [Game.input_handler, Snake.setDirection, opposite, hd]
  | right =>
    simp only [key_direction, Option.some.injEq] at hk
    subst hk
    by_cases hd : g.snake.direction = Direction.Left
    · simp [Game.input_handler, opposite, hd]
    · simp [Game.input_handler, Snake.setDirection, opposite, hd]
  | down =>
    simp only [key_direction, Option.some.injEq] at hk
    subst hk
    by_cases hd : g.snake.direction = Direction.Up
    · simp [Game.input_handler, opposite, hd]
    · simp [Game.input_handler, Snake.setDirection, opposite, hd]
  | left =>
    simp only [key_direction, Option.some.injEq] at hk
    subst hk
    by_cases hd : g.snake.direction = Direction.Right
    · simp [Game.input_handler, opposite, hd]
    · simp [Game.input_handler, Snake.setDirection, opposite, hd]
  | q => simp [key_direction] at hk
  | p => simp [key_direction] at hk
  | r => simp [key_direction] at hk
  | other => simp [key_direction] at hk

/-- Witness for C6: on a snake facing Right, the Left key (the exact
opposite) is rejected and the direction stays Right. -/
theorem C6_witness :
    (Game.input_handler Key.left gEat AppStatus.GAME).1.snake.direction =
      Direction.Right := by
  have h := C6_direction_reversal_guard gEat AppStatus.GAME Key.left Direction.Left rfl
  simpa using h

/-- The advance of a snake with the growth flag pending lengthens the body
by exactly one. -/
lemma Snake.move_body_length_of_grown (s : Snake) (hw : s.will_be_grown = true)
    (c : Coord) (t : List Coord) (hb : s.body = c :: t) :
    s.move_body.body.length = s.body.length + 1 := by
  rw [Snake.move_body_body s c t hb, hw, hb]
  simp

/-- C7: on a tick in the `RUN` state in which the moved head reaches the
food, the score is incremented by exactly one (modulo the 16-bit score
field, exact whenever no overflow), the speed interval decreases by the
fixed step 5 unless it is already at the floor 20, the floor invariant
(at least 20, multiple of 5) is preserved so the speed never drops below
the minimum interval, the pending-growth flag is set so the next advance
lengthens the body by one, and the food is regenerated from the candidate
stream. -/
theorem C7_eat_increments_score_speed_growth (width height : Nat)
    (cands : List Coord) (g g' : Game) (c : Coord) (t : List Coord)
    (hb : g.snake.body = c :: t)
    (hrun : g.gameStatus = GameStatus.RUN)
    (heat : g.food = g.snake.move_body.getHead)
    (hstep : g.render_step width height cands = some g') :
    g'.score = (g.score + 1) % M ∧
    (g.score + 1 < M → g'.score = g.score + 1) ∧
    g'.speed = (if g.speed > 20 then g.speed - 5 else g.speed) ∧
    (20 ≤ g.speed → 5 ∣ g.speed → 20 ≤ g'.speed ∧ 5 ∣ g'.speed) ∧
    g'.snake.will_be_grown = true ∧
    g'.snake.move_body.body.length = g'.snake.body.length + 1 ∧
    generate_food g'.snake cands = some g'.food := by
  obtain ⟨f, hgen, hg'⟩ := Game.render_step_eat width height cands g g' hrun heat hstep
  subst hg'
  rw [Game.apply_collision_check_score, Game.apply_collision_check_speed,
    Game.apply_collision_check_snake, Game.apply_collision_check_food]
  have hcons : (g.snake.move_body.grow_up).body =
      Snake.step_head g.snake.direction c ::
        (if g.snake.will_be_grown then c :: t else (c :: t).dropLast) :=
    Snake.move_body_body g.snake c t hb
  refine ⟨rfl, fun hlt => Nat.mod_eq_of_lt hlt, rfl, ?_, rfl, ?_, hgen⟩
  · intro h20 hdvd
    refine ⟨?_, ?_⟩ <;> simp only [gt_iff_lt] <;> split <;> omega
  · exact Snake.move_body_length_of_grown (g.snake.move_body.grow_up) rfl _ _ hcons

/-- Witness for C7 at the spec's scenario: eating at score 0 gives score 1,
speed 145, growth pending, and a body of length 2 after the next advance. -/
theorem C7_witness :
    gEatAfter.score = 1 ∧ gEatAfter.speed = 145 ∧
    gEatAfter.snake.will_be_grown = true ∧
    gEatAfter.snake.move_body.body.length = 2 := by
  have h := C7_eat_increments_score_speed_growth 80 24 [⟨11, 10⟩, ⟨1, 1⟩]
    gEat gEatAfter ⟨10, 10⟩ [] rfl rfl (by decide) (by decide)
  refine ⟨h.2.1 (by decide), by simpa using h.2.2.1, h.2.2.2.2.1, ?_⟩
  simpa using h.2.2.2.2.2.1

/-- The reset of a snake with body `c :: t` keeps exactly `[c]`. -/
lemma Snake.reset_body (s : Snake) (c : Coord) (t : List Coord)
    (hb : s.body = c :: t) : s.reset.body = [c] := by
  obtain ⟨b, d, w⟩ := s
  simp only at hb
  subst hb
  rfl

/-- C8: in every game state, the restart key truncates the body to exactly
the current head segment (length 1), keeps the head coordinate where it
was (no respawn), sets the game status to `PAUSE`, and leaves the
application status alone. -/
theorem C8_restart_truncates_and_pauses (g : Game) (status : AppStatus)
    (c : Coord) (t : List Coord) (hb : g.snake.body = c :: t) :
    (Game.input_handler Key.r g status).1.snake.body = [g.snake.getHead] ∧
    (Game.input_handler Key.r g status).1.snake.body.length = 1 ∧
    (Game.input_handler Key.r g status).1.snake.getHead = g.snake.getHead ∧
    (Game.input_handler Key.r g status).1.gameStatus = GameStatus.PAUSE ∧
    (Game.input_handler Key.r g status).2 = status := by
  have hh := Snake.getHead_eq g.snake c t hb
  have hr := Snake.reset_body g.snake c t hb
  have hrh : (g.snake.reset).getHead = c := Snake.getHead_eq _ c [] hr
  simp only [Game.input_handler]
  exact ⟨by rw [hr, hh], by simp [hr], by rw [hrh, hh], trivial, trivial⟩

/-- Witness for C8 from a game-over state at the wall: restart keeps the
head at the wall position and pauses. -/
theorem C8_witness :
    (Game.input_handler Key.r gWallAfter AppStatus.GAME).1.snake.body = [(⟨80, 10⟩ : Coord)] ∧
    (Game.input_handler Key.r gWallAfter AppStatus.GAME).1.snake.body.length = 1 ∧
    (Game.input_handler Key.r gWallAfter AppStatus.GAME).1.gameStatus = GameStatus.PAUSE := by
  have h := C8_restart_truncates_and_pauses gWallAfter AppStatus.GAME ⟨80, 10⟩ [] rfl
  exact ⟨h.1, h.2.1, h.2.2.2.1⟩

/-- C10: in the `GAME_OVER` state the pause key maps the status to `PAUSE`
(the toggle sends every non-`PAUSE` status there) with snake, score, speed
and food untouched, and a second pause key then resumes `RUN` — so a
game-over state can re-enter the playable cycle without any restart. -/
theorem C10_pause_key_exits_game_over (g : Game) (status : AppStatus)
    (hgo : g.gameStatus = GameStatus.GAME_OVER) :
    (Game.input_handler Key.p g status).1.gameStatus = GameStatus.PAUSE ∧
    (Game.input_handler Key.p g status).1.snake = g.snake ∧
    (Game.input_handler Key.p g status).1.score = g.score ∧
    (Game.input_handler Key.p g status).1.speed = g.speed ∧
    (Game.input_handler Key.p g status).1.food = g.food ∧
    (Game.input_handler Key.p (Game.input_handler Key.p g status).1 status).1.gameStatus =
      GameStatus.RUN := by
  simp [Game.input_handler, hgo]

/-- Witness for C10 at the concrete game-over state `gWallAfter`. -/
theorem C10_witness :
    (Game.input_handler Key.p gWallAfter AppStatus.GAME).1.gameStatus = GameStatus.PAUSE ∧
    (Game.input_handler Key.p gWallAfter AppStatus.GAME).1.snake = gWallAfter.snake ∧
    (Game.input_handler Key.p
        (Game.input_handler Key.p gWallAfter AppStatus.GAME).1 AppStatus.GAME).1.gameStatus =
      GameStatus.RUN := by
  have h := C10_pause_key_exits_game_over gWallAfter AppStatus.GAME rfl
  exact ⟨h.1, h.2.1, h.2.2.2.2.2⟩

/-- Event trace driving the freshly constructed game into the wall on the
left (turn up, turn left, ten ticks to reach `x = 0` and game over), then
exiting `GAME_OVER` with two presses of the pause key. -/
def c9_trace : List Event :=
  [Event.keyE Key.up, Event.keyE Key.left] ++
    List.replicate 10 (Event.tickE []) ++ [Event.keyE Key.p, Event.keyE Key.p]

/-- C9 counterexample: a reachable state (from the constructed game, via
the trace above on an 80 by 24 field) is in the `RUN` state with the head
at `(0, 10)` facing Left, and advancing from it underflows the unsigned
head coordinate: the next head is `(65535, 10)`, far outside the field —
so movement is not always guarded by a collision detection before the
wraparound manifests. -/
theorem C9_counterexample :
    ((mkGame [⟨1, 1⟩]).bind (fun g => run_events 80 24 c9_trace g)).map
        (fun g => (g.gameStatus, g.snake.getHead, g.snake.direction,
          g.snake.move_body.getHead)) =
      some (GameStatus.RUN, ⟨0, 10⟩, Direction.Left, ⟨65535, 10⟩) := by
  decide

/-- C9 amended: from any state whose head passes the in-bounds collision
check (strictly inside the border of a field no larger than the 16-bit
range), the advance of the head involves no modular wraparound: the new
head differs from the old by exactly one in the facing axis, with exact
`Nat` arithmetic, and stays within `[0, width] × [0, height]`. -/
theorem C9_amended_no_wrap_inside_field (width height : Nat) (s : Snake)
    (c : Coord) (t : List Coord) (hb : s.body = c :: t)
    (hw : width < M) (hh : height < M)
    (g : Game) (hs : g.snake = s)
    (hcol : g.check_collision width height = false) :
    (s.move_body.getHead.x ≤ width ∧ s.move_body.getHead.y ≤ height) ∧
    (s.direction = Direction.Up → s.move_body.getHead.y + 1 = c.y ∧
      s.move_body.getHead.x = c.x) ∧
    (s.direction = Direction.Down → s.move_body.getHead.y = c.y + 1 ∧
      s.move_body.getHead.x = c.x) ∧
    (s.direction = Direction.Left → s.move_body.getHead.x + 1 = c.x ∧
      s.move_body.getHead.y = c.y) ∧
    (s.direction = Direction.Right → s.move_body.getHead.x = c.x + 1 ∧
      s.move_body.getHead.y = c.y) := by
  subst hs
  have hbounds : 0 < c.x ∧ 0 < c.y ∧ c.x < width ∧ c.y < height := by
    have := Game.check_collision_true_iff width height g
    rw [Snake.getHead_eq g.snake c t hb] at this
    by_contra hcon
    have : g.check_collision width height = true := by
      rw [this]
      omega
    rw [hcol] at this
    exact Bool.noConfusion this
  have hhead := Snake.getHead_move_body g.snake c t hb
  obtain ⟨hx0, hy0, hxw, hyh⟩ := hbounds
  simp only [M] at hw hh
  cases hd : g.snake.direction with
  | Up =>
    rw [hd] at hhead
    simp only [Snake.step_head, M] at hhead
    have hx : g.snake.move_body.getHead.x = c.x := by rw [hhead]
    have hy : g.snake.move_body.getHead.y = (c.y + 65535) % 65536 := by rw [hhead]
    refine ⟨⟨?_, ?_⟩, fun hdd => ⟨?_, ?_⟩, fun hdd => Direction.noConfusion hdd,
      fun hdd => Direction.noConfusion hdd, fun hdd => Direction.noConfusion hdd⟩ <;> omega
  | Right =>
    rw [hd] at hhead
    simp only [Snake.step_head, M] at hhead
    have hx : g.snake.move_body.getHead.x = (c.x + 1) % 65536 := by rw [hhead]
    have hy : g.snake.move_body.getHead.y = c.y := by rw [hhead]
    refine ⟨⟨?_, ?_⟩, fun hdd => Direction.noConfusion hdd,
      fun hdd => Direction.noConfusion hdd, fun hdd => Direction.noConfusion hdd,
      fun hdd => ⟨?_, ?_⟩⟩ <;> omega
  | Down =>
    rw [hd] at hhead
    simp only [Snake.step_head, M] at hhead
    have hx : g.snake.move_body.getHead.x = c.x := by rw [hhead]
    have hy : g.snake.move_body.getHead.y = (c.y + 1) % 65536 := by rw [hhead]
    refine ⟨⟨?_, ?_⟩, fun hdd => Direction.noConfusion hdd, fun hdd => ⟨?_, ?_⟩,
      fun hdd => Direction.noConfusion hdd, fun hdd => Direction.noConfusion hdd⟩ <;> omega
  | Left =>
    rw [hd] at hhead
    simp only [Snake.step_head, M] at hhead
    have hx : g.snake.move_body.getHead.x = (c.x + 65535) % 65536 := by rw [hhead]
    have hy : g.snake.move_body.getHead.y = c.y := by rw [hhead]
    refine ⟨⟨?_, ?_⟩, fun hdd => Direction.noConfusion hdd,
      fun hdd => Direction.noConfusion hdd, fun hdd => ⟨?_, ?_⟩,
      fun hdd => Direction.noConfusion hdd⟩ <;> omega

/-- Witness for the amended C9: the in-bounds snake of `gEat` advances
right with exact arithmetic and stays inside the field. -/
theorem C9_amended_witness :
    gEat.snake.move_body.getHead.x ≤ 80 ∧ gEat.snake.move_body.getHead.y ≤ 24 ∧
    gEat.snake.move_body.getHead.x = 10 + 1 := by
  have h := C9_amended_no_wrap_inside_field 80 24 gEat.snake ⟨10, 10⟩ [] rfl
    (by decide) (by decide) gEat rfl (by decide)
  exact ⟨h.1.1, h.1.2, (h.2.2.2.2 rfl).1⟩
